import Mathlib

/-!
Shallow embedding of the node-weight cache of this repository.

The cache (`NodeWeightCache`) observes add/update/delete events for
cluster nodes, derives a per-node weight from a configurable metadata
annotation via `resolveNodeWeight`/`normalizeWeight`, stores it in a table,
and forwards every event to an optional downstream handler (`Next`,
modelled by the `hasNext` flag together with the `forwarded` list of an
`EventResult`).  The envoy endpoint builders `WeightedLBEndpoint` and
`LBEndpoint` are embedded at the end.

Go specifics carried over: a Go map read of an absent key yields the zero
value `0` (`lookupWeight`); `strconv.ParseUint(s, 10, 32)` accepts only
non-empty all-digit strings whose value fits in 32 bits (`parseUint32`);
`cmp.Equal` with `cmpopts.IgnoreFields(v1.Node{}, "Status")` compares two
values of different dynamic types as unequal, and two nodes by every field
except `Status` (`cmpEqualNodeIgnoreStatus`); `logrus` `Errorf` calls are
modelled by the `diagnostics` list of an `EventResult`.
-/

/-- The part of `metav1.ObjectMeta` the cache reads (`Name`, `Annotations`),
plus one opaque field standing for every other `ObjectMeta` field, which
participates in `cmp.Equal` but is never read by the weight logic. -/
structure ObjectMeta where
  name : String
  annotations : List (String × String)
  otherMeta : String
deriving DecidableEq, Repr

/-- `*v1.Node`: its `ObjectMeta`, an opaque field standing for
`TypeMeta`+`Spec` (compared by `cmp.Equal`, never read), and an opaque
`Status` field (ignored by the update comparison). -/
structure Node where
  meta : ObjectMeta
  spec : String
  status : String
deriving DecidableEq, Repr

/-- The dynamic payload of an event: a `*v1.Node`, an unrelated resource
type (the tests use `*v1.Endpoints`), or a
`cache.DeletedFinalStateUnknown{Key, Obj}` tombstone wrapper. -/
inductive Obj where
  | node : Node → Obj
  | endpoints : ObjectMeta → Obj
  | deletedFinalStateUnknown : String → Obj → Obj
deriving DecidableEq, Repr

/-- One call made on the downstream `cache.ResourceEventHandler`. -/
inductive Call where
  | onAdd : Obj → Call
  | onUpdate : Obj → Obj → Call
  | onDelete : Obj → Call
deriving DecidableEq, Repr

/-- `NodeWeightCache`: configuration (`NodeWeightAnnotation` key, default
weight, whether `Next` is non-nil) plus the `nodeWeights` table, a Go
`map[string]uint32` embedded as an association list. -/
structure NodeWeightCache where
  nodeWeightAnnotationKey : String
  defaultNodeWeight : Nat
  hasNext : Bool
  nodeWeights : List (String × Nat)
deriving DecidableEq, Repr

/-- `NewNodeWeightCache`: fresh cache with an empty table and `Next` nil. -/
def NewNodeWeightCache (annotationKey : String) (defaultNodeWeight : Nat) :
    NodeWeightCache :=
  { nodeWeightAnnotationKey := annotationKey
    defaultNodeWeight := defaultNodeWeight
    hasNext := false
    nodeWeights := [] }

/-- `cache.Next = handler` (the tests set the field after construction). -/
def setNext (c : NodeWeightCache) (b : Bool) : NodeWeightCache :=
  { c with hasNext := b }

/-- Go map read `m[k]`: the stored value, or the zero value `0` if absent. -/
def lookupWeight (m : List (String × Nat)) (k : String) : Nat :=
  (List.lookup k m).getD 0

/-- Go map deletion `delete(m, k)`. -/
def eraseKey (m : List (String × Nat)) (k : String) : List (String × Nat) :=
  m.filter (fun p => p.1 != k)

/-- Go map assignment `m[k] = v`. -/
def insertWeight (m : List (String × Nat)) (k : String) (v : Nat) :
    List (String × Nat) :=
  (k, v) :: eraseKey m k

/-- `GetWeightOfNode`: table value for the name, or the configured default
when the (zero-value) read yields `0`. -/
def GetWeightOfNode (c : NodeWeightCache) (nodeName : String) : Nat :=
  let nodeWeight := lookupWeight c.nodeWeights nodeName
  if nodeWeight = 0 then c.defaultNodeWeight else nodeWeight

/-- `strconv.ParseUint(s, 10, 32)`: succeeds exactly on non-empty strings
of ASCII digits whose value is below `2^32` (no sign, no underscores). -/
def parseUint32 (s : String) : Option Nat :=
  let cs := s.toList
  if cs.isEmpty then none
  else if cs.all Char.isDigit then
    let v := cs.foldl (fun acc c => acc * 10 + (c.toNat - 48)) 0
    if v < 4294967296 then some v else none
  else none

/-- `normalizeWeight`: values above 128 collapse to the default. -/
def normalizeWeight (weight defaultWeight : Nat) : Nat :=
  if weight > 128 then defaultWeight else weight

/-- `resolveNodeWeight(meta, annotationName, defaultValue)`: start from the
default, replace it by the annotation value when present and parseable,
then normalize. -/
def resolveNodeWeight (meta : ObjectMeta) (annotationName : String)
    (defaultValue : Nat) : Nat :=
  let weight :=
    match List.lookup annotationName meta.annotations with
    | some annotationStringValue =>
      match parseUint32 annotationStringValue with
      | some nweight => nweight
      | none => defaultValue
    | none => defaultValue
  normalizeWeight weight defaultValue

/-- `updateNodeWeight`: resolve the weight and write it only when it
differs from the previous (zero-value) read. -/
def updateNodeWeight (c : NodeWeightCache) (node : Node) : NodeWeightCache :=
  let weight :=
    resolveNodeWeight node.meta c.nodeWeightAnnotationKey c.defaultNodeWeight
  let previousWeight := lookupWeight c.nodeWeights node.meta.name
  if previousWeight ≠ weight then
    { c with nodeWeights := insertWeight c.nodeWeights node.meta.name weight }
  else c

/-- `deleteNodeWeight`: remove the table entry for the node's name. -/
def deleteNodeWeight (c : NodeWeightCache) (node : Node) : NodeWeightCache :=
  { c with nodeWeights := eraseKey c.nodeWeights node.meta.name }

/-- Go `cmp.Equal` on two annotation maps: same keys, same values
(extensional equality of lookups over the keys of both lists). -/
def annotMapEqual (a b : List (String × String)) : Bool :=
  a.all (fun p => List.lookup p.1 b == List.lookup p.1 a) &&
    b.all (fun p => List.lookup p.1 a == List.lookup p.1 b)

/-- `cmp.Equal(oldObj, newObj, cmpopts.IgnoreFields(v1.Node{}, "Status"))`:
different dynamic types are unequal; two nodes are compared on every field
except `Status`. -/
def cmpEqualNodeIgnoreStatus (oldObj newObj : Obj) : Bool :=
  match oldObj, newObj with
  | .node a, .node b =>
    a.meta.name == b.meta.name &&
      annotMapEqual a.meta.annotations b.meta.annotations &&
      a.meta.otherMeta == b.meta.otherMeta &&
      a.spec == b.spec
  | _, _ => false

/-- Outcome of one handler call: the cache afterwards, the calls made on
the downstream handler (in order), and the `Errorf` diagnostics logged. -/
structure EventResult where
  cache : NodeWeightCache
  forwarded : List Call
  diagnostics : List String
deriving DecidableEq, Repr

/-- `if c.Next != nil { ... }`: the downstream call, when configured. -/
def forwardIfNext (c : NodeWeightCache) (call : Call) : List Call :=
  if c.hasNext then [call] else []

/-- `NodeWeightCache.OnAdd`. -/
def OnAdd (c : NodeWeightCache) (obj : Obj) : EventResult :=
  match obj with
  | .node n =>
    { cache := updateNodeWeight c n
      forwarded := forwardIfNext c (.onAdd obj)
      diagnostics := [] }
  | _ =>
    { cache := c
      forwarded := forwardIfNext c (.onAdd obj)
      diagnostics := ["OnAdd unexpected type"] }

/-- `NodeWeightCache.OnUpdate`. -/
def OnUpdate (c : NodeWeightCache) (oldObj newObj : Obj) : EventResult :=
  match newObj with
  | .node n =>
    { cache :=
        if cmpEqualNodeIgnoreStatus oldObj newObj then c
        else updateNodeWeight c n
      forwarded := forwardIfNext c (.onUpdate oldObj newObj)
      diagnostics := [] }
  | _ =>
    { cache := c
      forwarded := forwardIfNext c (.onUpdate oldObj newObj)
      diagnostics := ["OnUpdate unexpected type"] }

/-- `NodeWeightCache.OnDelete`: a tombstone wrapper recurses on the inner
object (whose forwarding to `Next` happens inside the recursive call),
and then the outer call forwards the original payload as well. -/
def OnDelete (c : NodeWeightCache) (obj : Obj) : EventResult :=
  match obj with
  | .node n =>
    { cache := deleteNodeWeight c n
      forwarded := forwardIfNext c (.onDelete obj)
      diagnostics := [] }
  | .deletedFinalStateUnknown _ inner =>
    let r := OnDelete c inner
    { cache := r.cache
      forwarded := r.forwarded ++ forwardIfNext c (.onDelete obj)
      diagnostics := r.diagnostics }
  | .endpoints _ =>
    { cache := c
      forwarded := forwardIfNext c (.onDelete obj)
      diagnostics := ["OnDelete unexpected type"] }

/-- `internal/envoy/v3/endpoint.go`: `LbEndpoint` restricted to the two
fields the builders touch; `LoadBalancingWeight` is a nullable protobuf
wrapper, embedded as `Option Nat`; the address is opaque. -/
structure LbEndpoint where
  address : String
  loadBalancingWeight : Option Nat
deriving DecidableEq, Repr

/-- `const NoWeight = 0`. -/
def NoWeight : Nat := 0

/-- `WeightedLBEndpoint`: endpoint with the address set; the weight field
is set (to `protobuf.UInt32(weight)`) only when `weight > 0`. -/
def WeightedLBEndpoint (weight : Nat) (addr : String) : LbEndpoint :=
  let endpoint : LbEndpoint := { address := addr, loadBalancingWeight := none }
  if weight > 0 then { endpoint with loadBalancingWeight := some weight }
  else endpoint

/-- `LBEndpoint`. -/
def LBEndpoint (addr : String) : LbEndpoint :=
  WeightedLBEndpoint NoWeight addr

/-- Every value stored in the weight table is at most 128. -/
def tableInv (c : NodeWeightCache) : Prop :=
  ∀ p ∈ c.nodeWeights, p.2 ≤ 128

/-! ### Concrete example values used by counterexamples and witnesses -/

/-- A node named `node1` carrying the annotation `weight-annotation ↦ w`. -/
def nodeEx (w : String) : Node :=
  { meta :=
      { name := "node1"
        annotations := [("weight-annotation", w)]
        otherMeta := "" }
    spec := ""
    status := "" }

/-- Cache configured with key `weight-annotation`, default `1`, and a
downstream handler. -/
def cacheWithNext : NodeWeightCache :=
  setNext (NewNodeWeightCache "weight-annotation" 1) true

/-! ### Helper lemmas -/

theorem lookup_insertWeight_self (m : List (String × Nat)) (k : String) (v : Nat) :
    List.lookup k (insertWeight m k v) = some v := by
  simp [insertWeight, List.lookup]

theorem lookup_eraseKey_self (m : List (String × Nat)) (k : String) :
    List.lookup k (eraseKey m k) = none := by
  induction m with
  | nil => rfl
  | cons p t ih =>
    by_cases h : p.1 = k
    · simpa [eraseKey, h] using ih
    · have hk : (k == p.1) = false := by
        simp [Ne.symm h]
      simpa [eraseKey, h, List.lookup, hk] using ih

theorem lookupWeight_updateNodeWeight (c : NodeWeightCache) (n : Node) :
    lookupWeight (updateNodeWeight c n).nodeWeights n.meta.name
      = resolveNodeWeight n.meta c.nodeWeightAnnotationKey c.defaultNodeWeight := by
  unfold updateNodeWeight
  by_cases h : lookupWeight c.nodeWeights n.meta.name
      = resolveNodeWeight n.meta c.nodeWeightAnnotationKey c.defaultNodeWeight
  · simp [h]
  · simp only [h, ne_eq, not_false_iff, if_pos, ite_not]
    simp [lookupWeight, lookup_insertWeight_self]

theorem lookup_updateNodeWeight_absent (c : NodeWeightCache) (n : Node)
    (habs : List.lookup n.meta.name c.nodeWeights = none) :
    List.lookup n.meta.name (updateNodeWeight c n).nodeWeights
      = (if resolveNodeWeight n.meta c.nodeWeightAnnotationKey c.defaultNodeWeight = 0
         then none
         else some (resolveNodeWeight n.meta c.nodeWeightAnnotationKey c.defaultNodeWeight)) := by
  have h0 : lookupWeight c.nodeWeights n.meta.name = 0 := by
    simp [lookupWeight, habs]
  unfold updateNodeWeight
  by_cases hz : resolveNodeWeight n.meta c.nodeWeightAnnotationKey c.defaultNodeWeight = 0
  · simp [h0, hz, habs]
  · simp [h0, Ne.symm hz, hz, lookup_insertWeight_self]

theorem annotMapEqual_refl (l : List (String × String)) :
    annotMapEqual l l = true := by
  simp [annotMapEqual]

theorem normalizeWeight_le (w d : Nat) (hd : d ≤ 128) :
    normalizeWeight w d ≤ 128 := by
  unfold normalizeWeight
  split <;> omega

theorem resolveNodeWeight_le (meta : ObjectMeta) (key : String) (d : Nat)
    (hd : d ≤ 128) : resolveNodeWeight meta key d ≤ 128 := by
  unfold resolveNodeWeight
  exact normalizeWeight_le _ _ hd

theorem tableInv_updateNodeWeight (c : NodeWeightCache) (n : Node)
    (hd : c.defaultNodeWeight ≤ 128) (hI : tableInv c) :
    tableInv (updateNodeWeight c n) := by
  unfold updateNodeWeight
  by_cases h : lookupWeight c.nodeWeights n.meta.name
      = resolveNodeWeight n.meta c.nodeWeightAnnotationKey c.defaultNodeWeight
  · simpa [h, tableInv] using hI
  · simp only [h, ne_eq, not_false_iff, if_pos, ite_not]
    intro p hp
    simp only [insertWeight, List.mem_cons] at hp
    rcases hp with hp | hp
    · subst hp
      exact resolveNodeWeight_le _ _ _ hd
    · exact hI p (List.mem_of_mem_filter hp)

theorem tableInv_deleteNodeWeight (c : NodeWeightCache) (n : Node)
    (hI : tableInv c) : tableInv (deleteNodeWeight c n) := by
  intro p hp
  exact hI p (List.mem_of_mem_filter hp)

/-! ### Claim theorems -/

/-- C1: evaluation of `OnDelete` at a `DeletedFinalStateUnknown` wrapper
with a downstream handler configured: the downstream handler receives TWO
calls — first the unwrapped inner node (forwarded by the recursive
re-dispatch), then the wrapper itself — not exactly one call with the
wrapper, as the claim states. -/
theorem C1_tombstone_double_forward :
    (OnDelete cacheWithNext
        (Obj.deletedFinalStateUnknown "node1" (Obj.node (nodeEx "5")))).forwarded
      = [Call.onDelete (Obj.node (nodeEx "5")),
         Call.onDelete (Obj.deletedFinalStateUnknown "node1" (Obj.node (nodeEx "5")))]
    ∧ (OnDelete cacheWithNext
        (Obj.deletedFinalStateUnknown "node1" (Obj.node (nodeEx "5")))).forwarded.length
      = 2 := by
  decide

/-- C2: `resolveNodeWeight` returns the default when the key is absent or
its value does not parse as a 32-bit unsigned integer; otherwise it
returns the default when the parsed value exceeds 128 and the parsed value
itself (including 0) when it is at most 128; and it depends only on the
annotation map (given key and default). -/
theorem C2_resolveNodeWeight_contract (meta : ObjectMeta) (key : String) (d : Nat) :
    (List.lookup key meta.annotations = none → resolveNodeWeight meta key d = d) ∧
    (∀ s, List.lookup key meta.annotations = some s → parseUint32 s = none →
      resolveNodeWeight meta key d = d) ∧
    (∀ s v, List.lookup key meta.annotations = some s → parseUint32 s = some v →
      128 < v → resolveNodeWeight meta key d = d) ∧
    (∀ s v, List.lookup key meta.annotations = some s → parseUint32 s = some v →
      v ≤ 128 → resolveNodeWeight meta key d = v) ∧
    (∀ meta2 : ObjectMeta, meta2.annotations = meta.annotations →
      resolveNodeWeight meta2 key d = resolveNodeWeight meta key d) := by
  refine ⟨?_, ?_, ?_, ?_, ?_⟩
  · intro h
    simp [resolveNodeWeight, h, normalizeWeight]
  · intro s hs hp
    simp [resolveNodeWeight, hs, hp, normalizeWeight]
  · intro s v hs hp hv
    simp [resolveNodeWeight, hs, hp, normalizeWeight, hv]
  · intro s v hs hp hv
    simp [resolveNodeWeight, hs, hp, normalizeWeight, Nat.not_lt.2 hv]
  · intro meta2 h
    unfold resolveNodeWeight
    rw [h]

/-- C2 witness: annotation `"5"` under the configured key with default 1
resolves to 5. -/
theorem C2_witness :
    List.lookup "weight-annotation" (nodeEx "5").meta.annotations = some "5" ∧
    parseUint32 "5" = some 5 ∧ 5 ≤ 128 ∧
    resolveNodeWeight (nodeEx "5").meta "weight-annotation" 1 = 5 :=
  ⟨by decide, by decide, by decide,
    (C2_resolveNodeWeight_contract (nodeEx "5").meta "weight-annotation" 1).2.2.2.1
      "5" 5 (by decide) (by decide) (by decide)⟩

/-- C3: `GetWeightOfNode` returns the stored value, except that it returns
the configured default when the name is absent from the table or the
stored value is exactly 0; on a fresh cache (a name never seen) it returns
the configured default, not zero. -/
theorem C3_GetWeightOfNode_contract (c : NodeWeightCache) (nodeName : String) :
    (List.lookup nodeName c.nodeWeights = none →
      GetWeightOfNode c nodeName = c.defaultNodeWeight) ∧
    (List.lookup nodeName c.nodeWeights = some 0 →
      GetWeightOfNode c nodeName = c.defaultNodeWeight) ∧
    (∀ v, List.lookup nodeName c.nodeWeights = some v → v ≠ 0 →
      GetWeightOfNode c nodeName = v) ∧
    (∀ key d, GetWeightOfNode (NewNodeWeightCache key d) nodeName = d) := by
  refine ⟨?_, ?_, ?_, ?_⟩
  · intro h
    simp [GetWeightOfNode, lookupWeight, h]
  · intro h
    simp [GetWeightOfNode, lookupWeight, h]
  · intro v h hv
    simp [GetWeightOfNode, lookupWeight, h, hv]
  · intro key d
    simp [GetWeightOfNode, lookupWeight, NewNodeWeightCache]

/-- Cache state with a stored weight 5 for `node1`, used by witnesses. -/
def cacheStored5 : NodeWeightCache :=
  { nodeWeightAnnotationKey := "weight-annotation"
    defaultNodeWeight := 1
    hasNext := false
    nodeWeights := [("node1", 5)] }

/-- C3 witness: stored value 5 is returned; an unseen name on a fresh
cache yields the default 1. -/
theorem C3_witness :
    List.lookup "node1" cacheStored5.nodeWeights = some 5 ∧ (5 : Nat) ≠ 0 ∧
    GetWeightOfNode cacheStored5 "node1" = 5 ∧
    GetWeightOfNode (NewNodeWeightCache "weight-annotation" 1) "node2" = 1 :=
  ⟨by decide, by decide,
    (C3_GetWeightOfNode_contract cacheStored5 "node1").2.2.1 5 (by decide) (by decide),
    (C3_GetWeightOfNode_contract (NewNodeWeightCache "weight-annotation" 1)
      "node2").2.2.2 "weight-annotation" 1⟩

/-- C9: a direct delete of a node erases its table entry, a delete through
a `DeletedFinalStateUnknown` wrapper leaves exactly the same cache as the
direct delete, and after either one `GetWeightOfNode` for that name
returns the configured default. -/
theorem C9_OnDelete_removes_entry (c : NodeWeightCache) (n : Node) (key : String) :
    (OnDelete c (Obj.node n)).cache.nodeWeights = eraseKey c.nodeWeights n.meta.name ∧
    (OnDelete c (Obj.deletedFinalStateUnknown key (Obj.node n))).cache
      = (OnDelete c (Obj.node n)).cache ∧
    GetWeightOfNode (OnDelete c (Obj.node n)).cache n.meta.name
      = c.defaultNodeWeight ∧
    GetWeightOfNode (OnDelete c (Obj.deletedFinalStateUnknown key (Obj.node n))).cache
      n.meta.name = c.defaultNodeWeight := by
  have h3 : GetWeightOfNode (OnDelete c (Obj.node n)).cache n.meta.name
      = c.defaultNodeWeight := by
    simp [OnDelete, deleteNodeWeight, GetWeightOfNode, lookupWeight,
      lookup_eraseKey_self]
  exact ⟨rfl, rfl, h3, h3⟩

/-- C10: `WeightedLBEndpoint w a` carries address `a` and has its
`LoadBalancingWeight` set to `w` exactly when `w > 0` (unset when `w = 0`),
and `LBEndpoint a` is `WeightedLBEndpoint 0 a`. -/
theorem C10_WeightedLBEndpoint_contract (w : Nat) (a : String) :
    (WeightedLBEndpoint w a).address = a ∧
    ((WeightedLBEndpoint w a).loadBalancingWeight = some w ↔ 0 < w) ∧
    (w = 0 → (WeightedLBEndpoint w a).loadBalancingWeight = none) ∧
    LBEndpoint a = WeightedLBEndpoint 0 a := by
  refine ⟨?_, ?_, ?_, rfl⟩
  · unfold WeightedLBEndpoint
    split <;> rfl
  · unfold WeightedLBEndpoint
    by_cases h : 0 < w
    · simp [h]
    · have hw : w = 0 := by omega
      subst hw
      simp
  · intro h
    subst h
    simp [WeightedLBEndpoint]

/-- C10 witness: weight 5 sets the field to 5; weight 0 leaves it unset. -/
theorem C10_witness :
    (WeightedLBEndpoint 5 "addr").loadBalancingWeight = some 5 ∧
    (WeightedLBEndpoint 0 "addr").loadBalancingWeight = none ∧
    (WeightedLBEndpoint 5 "addr").address = "addr" :=
  ⟨(C10_WeightedLBEndpoint_contract 5 "addr").2.1.mpr (by decide),
    (C10_WeightedLBEndpoint_contract 0 "addr").2.2.1 rfl,
    (C10_WeightedLBEndpoint_contract 5 "addr").1⟩

/-- Configuration fields are untouched by `updateNodeWeight`. -/
theorem updateNodeWeight_config (c : NodeWeightCache) (n : Node) :
    (updateNodeWeight c n).defaultNodeWeight = c.defaultNodeWeight ∧
    (updateNodeWeight c n).nodeWeightAnnotationKey = c.nodeWeightAnnotationKey ∧
    (updateNodeWeight c n).hasNext = c.hasNext := by
  unfold updateNodeWeight
  by_cases h : lookupWeight c.nodeWeights n.meta.name
      = resolveNodeWeight n.meta c.nodeWeightAnnotationKey c.defaultNodeWeight
  · simp [h]
  · simp [h]

/-- C4 counterexample: annotation `"0"` parses to 0 and 0 is in range, yet
after the add `GetWeightOfNode` returns the configured default 1, not 0. -/
theorem C4_counterexample :
    parseUint32 "0" = some 0 ∧ (0 : Nat) ≤ 128 ∧
    GetWeightOfNode (OnAdd cacheWithNext (Obj.node (nodeEx "0"))).cache "node1" = 1 ∧
    (1 : Nat) ≠ 0 := by
  decide

/-- C4 amended: when the annotation under the configured key parses to
`v ≤ 128`, an `OnAdd` followed by `GetWeightOfNode` returns `v` when
`v ≠ 0`, and the configured default when `v = 0`. -/
theorem C4_add_then_get (c : NodeWeightCache) (n : Node) (s : String) (v : Nat)
    (hs : List.lookup c.nodeWeightAnnotationKey n.meta.annotations = some s)
    (hp : parseUint32 s = some v) (hv : v ≤ 128) :
    GetWeightOfNode (OnAdd c (Obj.node n)).cache n.meta.name
      = if v = 0 then c.defaultNodeWeight else v := by
  have hres : resolveNodeWeight n.meta c.nodeWeightAnnotationKey c.defaultNodeWeight
      = v := by
    simp [resolveNodeWeight, hs, hp, normalizeWeight, Nat.not_lt.2 hv]
  have hlw : lookupWeight (OnAdd c (Obj.node n)).cache.nodeWeights n.meta.name = v := by
    have h := lookupWeight_updateNodeWeight c n
    rw [hres] at h
    exact h
  have hdef : (OnAdd c (Obj.node n)).cache.defaultNodeWeight
      = c.defaultNodeWeight := (updateNodeWeight_config c n).1
  simp [GetWeightOfNode, hlw, hdef]

/-- C4 witness: annotation `"5"`, default 1 — the add stores 5 and
`GetWeightOfNode` returns 5. -/
theorem C4_witness :
    List.lookup cacheWithNext.nodeWeightAnnotationKey
      (nodeEx "5").meta.annotations = some "5" ∧
    parseUint32 "5" = some 5 ∧ (5 : Nat) ≤ 128 ∧
    GetWeightOfNode (OnAdd cacheWithNext (Obj.node (nodeEx "5"))).cache "node1" = 5 := by
  refine ⟨by decide, by decide, by decide, ?_⟩
  have h := C4_add_then_get cacheWithNext (nodeEx "5") "5" 5
    (by decide) (by decide) (by decide)
  simpa [nodeEx] using h

/-- C5 counterexample: with configured default 200, an out-of-range
annotation `"150"` collapses to the default and the table then holds the
value 200, which is not in `[0, 128]`. -/
theorem C5_counterexample :
    ("node1", 200) ∈ (OnAdd (NewNodeWeightCache "weight-annotation" 200)
        (Obj.node (nodeEx "150"))).cache.nodeWeights ∧
    ¬ ((200 : Nat) ≤ 128) := by
  decide

/-- C5 amended: provided the configured default weight is at most 128,
every operation preserves the invariant that every stored value lies in
`[0, 128]`. -/
theorem C5_invariant (c : NodeWeightCache) (obj oldObj newObj dObj : Obj)
    (hd : c.defaultNodeWeight ≤ 128) (hI : tableInv c) :
    tableInv (OnAdd c obj).cache ∧ tableInv (OnUpdate c oldObj newObj).cache ∧
    tableInv (OnDelete c dObj).cache := by
  refine ⟨?_, ?_, ?_⟩
  · cases obj with
    | node n => exact tableInv_updateNodeWeight c n hd hI
    | endpoints m => exact hI
    | deletedFinalStateUnknown k inner => exact hI
  · cases newObj with
    | node n =>
      by_cases h : cmpEqualNodeIgnoreStatus oldObj (Obj.node n) = true
      · simpa [OnUpdate, h] using hI
      · simp only [OnUpdate, h, if_false, Bool.false_eq_true]
        exact tableInv_updateNodeWeight c n hd hI
    | endpoints m => exact hI
    | deletedFinalStateUnknown k inner => exact hI
  · induction dObj with
    | node n => exact tableInv_deleteNodeWeight c n hI
    | endpoints m => exact hI
    | deletedFinalStateUnknown k inner ih => simpa [OnDelete] using ih

/-- C5 witness: default 1 and an empty table satisfy the hypotheses, and
the invariant holds after an add, an update and a delete. -/
theorem C5_witness :
    cacheWithNext.defaultNodeWeight ≤ 128 ∧ tableInv cacheWithNext ∧
    (tableInv (OnAdd cacheWithNext (Obj.node (nodeEx "5"))).cache ∧
      tableInv (OnUpdate cacheWithNext (Obj.node (nodeEx "10"))
        (Obj.node (nodeEx "5"))).cache ∧
      tableInv (OnDelete cacheWithNext (Obj.node (nodeEx "5"))).cache) := by
  have hI : tableInv cacheWithNext := by
    intro p hp
    simp [cacheWithNext, setNext, NewNodeWeightCache] at hp
  exact ⟨by decide, hI,
    C5_invariant cacheWithNext (Obj.node (nodeEx "5")) (Obj.node (nodeEx "10"))
      (Obj.node (nodeEx "5")) (Obj.node (nodeEx "5")) (by decide) hI⟩

/-- `true` exactly on a node payload. -/
def isNodeObj : Obj → Bool
  | .node _ => true
  | _ => false

/-- Unrelated payload (`*v1.Endpoints`) used by tests and counterexamples. -/
def endpointsEx : Obj :=
  Obj.endpoints
    { name := "node1"
      annotations := [("weight-annotation", "15")]
      otherMeta := "" }

/-- Cache with stored weight 10 for `node1` and a downstream handler. -/
def cacheStored10 : NodeWeightCache :=
  { nodeWeightAnnotationKey := "weight-annotation"
    defaultNodeWeight := 1
    hasNext := true
    nodeWeights := [("node1", 10)] }

/-- C6 counterexample: an update whose OLD payload is not a node while the
new one is a node writes the table (10 becomes 5) and logs no diagnostic,
mirroring the repository test `wrong old type updated`. -/
theorem C6_counterexample :
    (OnUpdate cacheStored10 endpointsEx (Obj.node (nodeEx "5"))).cache.nodeWeights
      ≠ cacheStored10.nodeWeights ∧
    List.lookup "node1"
      (OnUpdate cacheStored10 endpointsEx
        (Obj.node (nodeEx "5"))).cache.nodeWeights = some 5 ∧
    (OnUpdate cacheStored10 endpointsEx (Obj.node (nodeEx "5"))).diagnostics = [] := by
  decide

/-- C6 amended: when the NEW payload of an update is not a node the table
is untouched, a diagnostic is logged and the event is forwarded; when the
old payload is not a node but the new one is, the comparison fails, so the
new node's weight is resolved and upserted (no diagnostic), and the event
is forwarded. -/
theorem C6_update_type_mismatch (c : NodeWeightCache) (oldObj newObj : Obj) :
    (isNodeObj newObj = false →
      (OnUpdate c oldObj newObj).cache = c ∧
      (OnUpdate c oldObj newObj).diagnostics = ["OnUpdate unexpected type"] ∧
      (OnUpdate c oldObj newObj).forwarded
        = forwardIfNext c (Call.onUpdate oldObj newObj)) ∧
    (∀ n, isNodeObj oldObj = false → newObj = Obj.node n →
      (OnUpdate c oldObj newObj).cache = updateNodeWeight c n ∧
      (OnUpdate c oldObj newObj).diagnostics = [] ∧
      (OnUpdate c oldObj newObj).forwarded
        = forwardIfNext c (Call.onUpdate oldObj newObj)) := by
  constructor
  · intro h
    cases newObj with
    | node n => simp [isNodeObj] at h
    | endpoints m => exact ⟨rfl, rfl, rfl⟩
    | deletedFinalStateUnknown k inner => exact ⟨rfl, rfl, rfl⟩
  · intro n hold hnew
    subst hnew
    have hcmp : cmpEqualNodeIgnoreStatus oldObj (Obj.node n) = false := by
      cases oldObj with
      | node a => simp [isNodeObj] at hold
      | endpoints m => rfl
      | deletedFinalStateUnknown k inner => rfl
    simp [OnUpdate, hcmp]

/-- C6 witness: both directions at concrete payloads — a non-node new
payload leaves the table and logs the diagnostic; a non-node old payload
with a node new payload results in the upsert. -/
theorem C6_witness :
    isNodeObj endpointsEx = false ∧
    (OnUpdate cacheStored10 (Obj.node (nodeEx "10")) endpointsEx).cache
      = cacheStored10 ∧
    (OnUpdate cacheStored10 (Obj.node (nodeEx "10")) endpointsEx).diagnostics
      = ["OnUpdate unexpected type"] ∧
    (OnUpdate cacheStored10 endpointsEx (Obj.node (nodeEx "5"))).cache
      = updateNodeWeight cacheStored10 (nodeEx "5") := by
  refine ⟨by decide, ?_, ?_, ?_⟩
  · exact ((C6_update_type_mismatch cacheStored10 (Obj.node (nodeEx "10"))
      endpointsEx).1 (by decide)).1
  · exact ((C6_update_type_mismatch cacheStored10 (Obj.node (nodeEx "10"))
      endpointsEx).1 (by decide)).2.1
  · exact ((C6_update_type_mismatch cacheStored10 endpointsEx
      (Obj.node (nodeEx "5"))).2 (nodeEx "5") (by decide) rfl).1

/-- C7 counterexample: a first add whose resolved weight is 0 (annotation
`"0"`) creates NO entry in the table. -/
theorem C7_counterexample :
    resolveNodeWeight (nodeEx "0").meta "weight-annotation" 1 = 0 ∧
    List.lookup "node1"
      (OnAdd (NewNodeWeightCache "weight-annotation" 1)
        (Obj.node (nodeEx "0"))).cache.nodeWeights = none := by
  decide

/-- C7 amended: the first `OnAdd` or table-touching `OnUpdate` for a
name absent from the table creates an entry exactly when the resolved
weight is nonzero; a resolved weight of 0 creates none, on either path. -/
theorem C7_first_event_entry (c : NodeWeightCache) (n : Node) (oldObj : Obj)
    (w : Nat) (habs : List.lookup n.meta.name c.nodeWeights = none)
    (hw : resolveNodeWeight n.meta c.nodeWeightAnnotationKey c.defaultNodeWeight = w) :
    (w ≠ 0 → List.lookup n.meta.name
      (OnAdd c (Obj.node n)).cache.nodeWeights = some w) ∧
    (w ≠ 0 → cmpEqualNodeIgnoreStatus oldObj (Obj.node n) = false →
      List.lookup n.meta.name
        (OnUpdate c oldObj (Obj.node n)).cache.nodeWeights = some w) ∧
    (w = 0 → List.lookup n.meta.name
      (OnAdd c (Obj.node n)).cache.nodeWeights = none) ∧
    (w = 0 → cmpEqualNodeIgnoreStatus oldObj (Obj.node n) = false →
      List.lookup n.meta.name
        (OnUpdate c oldObj (Obj.node n)).cache.nodeWeights = none) := by
  have hupd := lookup_updateNodeWeight_absent c n habs
  rw [hw] at hupd
  refine ⟨?_, ?_, ?_, ?_⟩
  · intro h0
    have hc : (OnAdd c (Obj.node n)).cache = updateNodeWeight c n := rfl
    rw [hc, hupd, if_neg h0]
  · intro h0 hcmp
    have hc : (OnUpdate c oldObj (Obj.node n)).cache = updateNodeWeight c n := by
      simp [OnUpdate, hcmp]
    rw [hc, hupd, if_neg h0]
  · intro h0
    have hc : (OnAdd c (Obj.node n)).cache = updateNodeWeight c n := rfl
    rw [hc, hupd, if_pos h0]
  · intro h0 hcmp
    have hc : (OnUpdate c oldObj (Obj.node n)).cache = updateNodeWeight c n := by
      simp [OnUpdate, hcmp]
    rw [hc, hupd, if_pos h0]

/-- C7 witness: fresh cache — annotation `"5"` makes the add create the
entry with value 5, and annotation `"0"` makes a table-touching update
create no entry. -/
theorem C7_witness :
    List.lookup "node1" (NewNodeWeightCache "weight-annotation" 1).nodeWeights
      = none ∧
    resolveNodeWeight (nodeEx "5").meta "weight-annotation" 1 = 5 ∧
    List.lookup "node1"
      (OnAdd (NewNodeWeightCache "weight-annotation" 1)
        (Obj.node (nodeEx "5"))).cache.nodeWeights = some 5 ∧
    resolveNodeWeight (nodeEx "0").meta "weight-annotation" 1 = 0 ∧
    cmpEqualNodeIgnoreStatus endpointsEx (Obj.node (nodeEx "0")) = false ∧
    List.lookup "node1"
      (OnUpdate (NewNodeWeightCache "weight-annotation" 1) endpointsEx
        (Obj.node (nodeEx "0"))).cache.nodeWeights = none := by
  refine ⟨by decide, by decide, ?_, by decide, by decide, ?_⟩
  · exact (C7_first_event_entry (NewNodeWeightCache "weight-annotation" 1)
      (nodeEx "5") endpointsEx 5 (by decide) (by decide)).1 (by decide)
  · exact (C7_first_event_entry (NewNodeWeightCache "weight-annotation" 1)
      (nodeEx "0") endpointsEx 0 (by decide) (by decide)).2.2.2 rfl (by decide)

/-- C8: an update whose old and new nodes agree on everything except the
status leaves the cache entirely unchanged (no write occurs), while an
update whose annotation map changed results in the table holding the
newly resolved weight for the node's name. -/
theorem C8_update_semantics (c : NodeWeightCache) (a b : Node) :
    (a.meta = b.meta → a.spec = b.spec →
      (OnUpdate c (Obj.node a) (Obj.node b)).cache = c) ∧
    (annotMapEqual a.meta.annotations b.meta.annotations = false →
      lookupWeight (OnUpdate c (Obj.node a) (Obj.node b)).cache.nodeWeights
          b.meta.name
        = resolveNodeWeight b.meta c.nodeWeightAnnotationKey c.defaultNodeWeight) := by
  constructor
  · intro hm hs
    have hcmp : cmpEqualNodeIgnoreStatus (Obj.node a) (Obj.node b) = true := by
      simp [cmpEqualNodeIgnoreStatus, hm, hs, annotMapEqual_refl]
    simp [OnUpdate, hcmp]
  · intro hne
    have hcmp : cmpEqualNodeIgnoreStatus (Obj.node a) (Obj.node b) = false := by
      simp [cmpEqualNodeIgnoreStatus, hne]
    have hcache : (OnUpdate c (Obj.node a) (Obj.node b)).cache
        = updateNodeWeight c b := by
      simp [OnUpdate, hcmp]
    rw [hcache]
    exact lookupWeight_updateNodeWeight c b

/-- Two nodes equal except for their status, used by the C8 witness. -/
def nodeStatusA : Node :=
  { meta :=
      { name := "node1"
        annotations := [("weight-annotation", "5")]
        otherMeta := "" }
    spec := ""
    status := "ready" }

/-- Like `nodeStatusA` with a different status. -/
def nodeStatusB : Node :=
  { meta :=
      { name := "node1"
        annotations := [("weight-annotation", "5")]
        otherMeta := "" }
    spec := ""
    status := "unready" }

/-- C8 witness: a status-only update leaves the cache unchanged; an update
changing the annotation from `"10"` to `"5"` leaves the resolved weight 5
in the table. -/
theorem C8_witness :
    nodeStatusA.meta = nodeStatusB.meta ∧ nodeStatusA.spec = nodeStatusB.spec ∧
    (OnUpdate cacheStored10 (Obj.node nodeStatusA) (Obj.node nodeStatusB)).cache
      = cacheStored10 ∧
    annotMapEqual (nodeEx "10").meta.annotations (nodeEx "5").meta.annotations
      = false ∧
    lookupWeight (OnUpdate cacheStored10 (Obj.node (nodeEx "10"))
        (Obj.node (nodeEx "5"))).cache.nodeWeights "node1"
      = resolveNodeWeight (nodeEx "5").meta cacheStored10.nodeWeightAnnotationKey
          cacheStored10.defaultNodeWeight := by
  refine ⟨rfl, rfl, ?_, by decide, ?_⟩
  · exact (C8_update_semantics cacheStored10 nodeStatusA nodeStatusB).1 rfl rfl
  · exact (C8_update_semantics cacheStored10 (nodeEx "10") (nodeEx "5")).2 (by decide)
